import Mathlib

/-!
Shallow embedding of the trading-dashboard front end: the chart component
(series synchronization, `src/components/chart.tsx`) and the dashboard
(feed state handlers).  Prices are modelled as rationals, timestamps as the
raw strings of the feed together with an abstract date parser
`parseMs : String → Option Int` (milliseconds since epoch, `none` when the
JS `Date` constructor would yield `NaN`).
-/

namespace FrontEnd

/-- A market tick as received from the feed (the `MarketTick` interface). -/
structure MarketTick where
  symbol : String
  timestamp : String
  open_ : ℚ
  high : ℚ
  low : ℚ
  close : ℚ
  volume : Option ℚ
deriving DecidableEq

/-- One candlestick point handed to the rendering surface: `time` is the
bucket (`Math.floor(ts / 1000)`, seconds), prices copied from the tick. -/
structure ChartPoint where
  time : Int
  open_ : ℚ
  high : ℚ
  low : ℚ
  close : ℚ
deriving DecidableEq

/-- The mapping step of the synchronizer: parse the timestamp, drop the tick
on `NaN`, otherwise truncate to seconds and copy the OHLC values
(`chart.tsx` lines 102-114). -/
def toChartPoint (parseMs : String → Option Int) (tick : MarketTick) : Option ChartPoint :=
  match parseMs tick.timestamp with
  | none => none
  | some ts =>
      some { time := Int.fdiv ts 1000, open_ := tick.open_, high := tick.high,
             low := tick.low, close := tick.close }

/-- One step of building the JS `Map` from the `[d.time, d]` entries: an
existing key keeps its position and gets the new value, a fresh key is
appended at the end. -/
def insertLastWins (m : List ChartPoint) (d : ChartPoint) : List ChartPoint :=
  if m.any (fun e => e.time == d.time) then
    m.map (fun e => if e.time == d.time then d else e)
  else
    m ++ [d]

/-- `Array.from(new Map(chartData.map((d) => [d.time, d])).values())`
(`chart.tsx` lines 129-130). -/
def dedupByTime (l : List ChartPoint) : List ChartPoint :=
  l.foldl insertLastWins []

/-- The ascending-by-time order used by
`.sort((a, b) => (a.time as number) - (b.time as number))`. -/
def timeLE (a b : ChartPoint) : Prop := a.time ≤ b.time

instance : DecidableRel timeLE :=
  fun a b => inferInstanceAs (Decidable (a.time ≤ b.time))

instance : IsTotal ChartPoint timeLE := ⟨fun a b => Int.le_total a.time b.time⟩

instance : IsTrans ChartPoint timeLE := ⟨fun _ _ _ hab hbc => le_trans hab hbc⟩

/-- The comparator sort on `chart.tsx` line 131; after deduplication the
keys are distinct, so any comparator-correct sort yields this result. -/
def sortByTime (l : List ChartPoint) : List ChartPoint :=
  List.insertionSort timeLE l

/-- `chartData` of the data effect: buffer mapped to points, unparseable
timestamps dropped. -/
def chartDataOf (parseMs : String → Option Int) (data : List MarketTick) : List ChartPoint :=
  data.filterMap (toChartPoint parseMs)

/-- `uniqueData` of the data effect: deduplicated by bucket, sorted
ascending. -/
def uniqueDataOf (parseMs : String → Option Int) (data : List MarketTick) : List ChartPoint :=
  sortByTime (dedupByTime (chartDataOf parseMs data))

/-- The update the data effect pushes to the rendering surface: `series` is
the argument of `setData`, `fit` tells whether `fitContent` is issued. -/
structure RenderAction where
  series : List ChartPoint
  fit : Bool
deriving DecidableEq

/-- The data effect of `ChartComponent` (`chart.tsx` lines 99-140): `none`
means the rendering surface is not touched (early `return` before
`setData`); otherwise `setData(uniqueData)` runs and `fitContent` is issued
exactly when `uniqueData.length <= 20`. -/
def syncSeries (parseMs : String → Option Int) (data : List MarketTick) : Option RenderAction :=
  if data.length = 0 then none
  else if (chartDataOf parseMs data).length = 0 then none
  else if (uniqueDataOf parseMs data).length = 0 then none
  else some { series := uniqueDataOf parseMs data,
              fit := decide ((uniqueDataOf parseMs data).length ≤ 20) }

/-- The agent-decision payload (the `AgentDecision` interface); `positionSide`
is the raw string union `"LONG" | "NONE"`, optional fields are `Option`. -/
structure AgentDecision where
  action : String
  symbol : String
  quantity : Option ℚ
  price : Option ℚ
  reason : String
  balance : ℚ
  equity : ℚ
  realizedPnl : Option ℚ
  roiPct : Option ℚ
  positionSide : Option String
  positionSize : Option ℚ
  positionOpenTime : Option String
  takeProfitPrice : Option ℚ
  stopLossPrice : Option ℚ
  positionNotional : Option ℚ
  avgEntryPrice : Option ℚ
deriving DecidableEq

/-- `agentDecision?.positionSide === "LONG" && (agentDecision.positionSize ?? 0) > 0`
(dashboard lines 175-176). -/
def hasOpenPosition (agentDecision : Option AgentDecision) : Bool :=
  match agentDecision with
  | none => false
  | some a => a.positionSide == some "LONG" && decide (0 < a.positionSize.getD 0)

/-- What the Position block of the dashboard renders. -/
inductive PositionView
  | openPosition (size : ℚ) (entry notional tp sl : Option ℚ) (openedAt : Option String)
  | noOpenPosition
deriving DecidableEq

/-- The ternary on `hasOpenPosition` in the Position block (dashboard lines
361-398): the open branch shows size, entry, notional, take profit, stop
loss and open time; the other branch shows the "No open position" row. -/
def renderPosition (agentDecision : Option AgentDecision) : PositionView :=
  if hasOpenPosition agentDecision then
    match agentDecision with
    | some a => .openPosition (a.positionSize.getD 0) a.avgEntryPrice a.positionNotional
        a.takeProfitPrice a.stopLossPrice a.positionOpenTime
    | none => .noOpenPosition
  else .noOpenPosition

/-- `addLog` (dashboard lines 54-57): `now` is `new Date().toLocaleTimeString()`
read at the moment the entry is formatted; the entry is prepended and the
previous list truncated to its first 99 elements. -/
def addLog (now msg : String) (logs : List String) : List String :=
  ("[" ++ now ++ "] " ++ msg) :: logs.take 99

/-- Result of the `fetch` in `handleForceUpdate`: a response with its `ok`
flag, or a rejected promise carrying its stringified error. -/
inductive FetchResult
  | response (ok : Bool)
  | networkError (errStr : String)
deriving DecidableEq

/-- `String(error)` for the error caught in `handleForceUpdate`: `!res.ok`
throws `new Error("Force update failed")`, whose stringification is fixed;
a rejected fetch carries its own message.  `none` means no error. -/
def forceUpdateError : FetchResult → Option String
  | .response true => none
  | .response false => some "Error: Force update failed"
  | .networkError e => some e

/-- The dashboard state touched by the handlers modelled here. -/
structure DashState where
  isConnected : Bool
  logs : List String
  currentTick : Option MarketTick
  chartData : List MarketTick
deriving DecidableEq

/-- `handleForceUpdate` (dashboard lines 91-100); `now1` and `now2` are the
wall-clock readings at the two `addLog` call sites. -/
def handleForceUpdate (now1 now2 : String) (r : FetchResult) (s : DashState) : DashState :=
  let s1 := { s with logs := addLog now1 "Requesting force update..." s.logs }
  match forceUpdateError r with
  | none => { s1 with logs := addLog now2 "Force update requested successfully" s1.logs }
  | some e =>
      { s1 with logs := addLog now2 ("ERROR: Force update failed - " ++ e.take 40) s1.logs }

/-- The `/topic/market` handler's chart-buffer update (dashboard lines
122-125): drop every buffered tick with the incoming timestamp string, then
append the incoming tick. -/
def applyMarketTick (tick : MarketTick) (prev : List MarketTick) : List MarketTick :=
  (prev.filter (fun d => d.timestamp != tick.timestamp)) ++ [tick]

/-- `priceChange` (dashboard line 170). -/
def priceChange (currentTick : Option MarketTick) : ℚ :=
  match currentTick with
  | some t => t.close - t.open_
  | none => 0

/-- `percentChange` (dashboard lines 171-172): guarded by
`currentTick && currentTick.open !== 0`. -/
def percentChange (currentTick : Option MarketTick) : ℚ :=
  match currentTick with
  | some t => if t.open_ ≠ 0 then priceChange (some t) / t.open_ * 100 else 0
  | none => 0

/-- Shape of a pushed update: the series is `uniqueData` and the fit flag is
the `<= 20` test on it. -/
theorem syncSeries_some {parseMs : String → Option Int} {data : List MarketTick}
    {act : RenderAction} (h : syncSeries parseMs data = some act) :
    act.series = uniqueDataOf parseMs data ∧
      act.fit = decide ((uniqueDataOf parseMs data).length ≤ 20) := by
  unfold syncSeries at h
  split at h
  · exact absurd h (by simp)
  · split at h
    · exact absurd h (by simp)
    · split at h
      · exact absurd h (by simp)
      · obtain rfl := Option.some.inj h
        exact ⟨rfl, rfl⟩

/-- A two-timestamp date parser used by the concrete witnesses. -/
def parseMsW (s : String) : Option Int :=
  if s = "a" then some 1000 else if s = "b" then some 2500 else none

/-- First witness tick ("a", bucket 1). -/
def tickW1 : MarketTick :=
  { symbol := "S", timestamp := "a", open_ := 1, high := 2, low := 0, close := 1,
    volume := none }

/-- Second witness tick ("b", bucket 2). -/
def tickW2 : MarketTick :=
  { symbol := "S", timestamp := "b", open_ := 3, high := 4, low := 2, close := 3,
    volume := none }

/-- Chart point of `tickW1`. -/
def ptW1 : ChartPoint := { time := 1, open_ := 1, high := 2, low := 0, close := 1 }

/-- Chart point of `tickW2`. -/
def ptW2 : ChartPoint := { time := 2, open_ := 3, high := 4, low := 2, close := 3 }

/-- Claim C3: whenever the synchronizer pushes an update, the auto-fit
command is issued if and only if the canonical series it pushed has at most
20 points (so it is issued for 20 points and withheld for 21). -/
theorem autofit_iff_atMost20 (parseMs : String → Option Int) (data : List MarketTick)
    (act : RenderAction) (h : syncSeries parseMs data = some act) :
    act.fit = true ↔ act.series.length ≤ 20 := by
  obtain ⟨hs, hf⟩ := syncSeries_some h
  rw [hf, hs]
  simp

/-- Witness for C3 at a concrete two-tick buffer. -/
theorem autofit_iff_atMost20_witness :
    (RenderAction.mk [ptW1, ptW2] true).fit = true ↔
      (RenderAction.mk [ptW1, ptW2] true).series.length ≤ 20 :=
  autofit_iff_atMost20 parseMsW [tickW1, tickW2] (RenderAction.mk [ptW1, ptW2] true) rfl

/-- Claim C4: if every tick's timestamp fails to parse — and in particular
for the empty buffer — the canonical series is empty and the data effect
returns before `setData`: neither `setData` nor `fitContent` is issued, so
the previous render state is preserved. -/
theorem unparseable_buffer_no_update (parseMs : String → Option Int) (data : List MarketTick)
    (h : ∀ t ∈ data, parseMs t.timestamp = none) :
    chartDataOf parseMs data = [] ∧ syncSeries parseMs data = none := by
  have hfm : chartDataOf parseMs data = [] := by
    unfold chartDataOf
    rw [List.filterMap_eq_nil_iff]
    intro t ht
    unfold toChartPoint
    rw [h t ht]
  refine ⟨hfm, ?_⟩
  unfold syncSeries
  rcases Nat.eq_zero_or_pos data.length with h0 | h0
  · simp [h0]
  · rw [if_neg (by omega), hfm]
    simp

/-- Witness for C4: a one-tick buffer whose timestamp does not parse. -/
theorem unparseable_buffer_no_update_witness :
    chartDataOf (fun _ => none) [tickW1] = [] ∧
      syncSeries (fun _ => none) [tickW1] = none :=
  unparseable_buffer_no_update (fun _ => none) [tickW1] (fun _ _ => rfl)

/-- Claim C5: the Position block renders an open position iff `positionSide`
is `"LONG"` and the position size (absent read as 0) is positive; in
particular `LONG` with size 0 renders the "No open position" row whatever
the optional detail fields hold. -/
theorem open_position_iff (a : AgentDecision) :
    (renderPosition (some a) ≠ PositionView.noOpenPosition ↔
      a.positionSide = some "LONG" ∧ 0 < a.positionSize.getD 0) ∧
    (a.positionSide = some "LONG" → a.positionSize = some 0 →
      renderPosition (some a) = PositionView.noOpenPosition) := by
  constructor
  · unfold renderPosition hasOpenPosition
    by_cases hs : a.positionSide = some "LONG" <;>
      by_cases hp : 0 < a.positionSize.getD 0 <;>
        simp [hs, hp]
  · intro hs hp
    unfold renderPosition hasOpenPosition
    simp [hs, hp]

/-- An agent decision with a LONG side, zero size, and all optional detail
fields present. -/
def decisionW : AgentDecision :=
  { action := "HOLD", symbol := "S", quantity := none, price := none, reason := "r",
    balance := 100, equity := 100, realizedPnl := none, roiPct := none,
    positionSide := some "LONG", positionSize := some 0, positionOpenTime := some "t",
    takeProfitPrice := some 1, stopLossPrice := some 1, positionNotional := some 1,
    avgEntryPrice := some 1 }

/-- Witness for C5: `LONG` with size 0 and every detail field present still
renders as no open position. -/
theorem open_position_iff_witness :
    renderPosition (some decisionW) = PositionView.noOpenPosition :=
  (open_position_iff decisionW).2 rfl rfl

/-- Claim C10: the percent-change display is exactly 0 when no tick is
present, and when the current tick's open price is 0 (the guard prevents
the division). -/
theorem percent_change_zero_guard :
    percentChange none = 0 ∧
    ∀ t : MarketTick, t.open_ = 0 → percentChange (some t) = 0 := by
  refine ⟨rfl, ?_⟩
  intro t ht
  unfold percentChange
  simp [ht]

/-- A tick whose open price is 0. -/
def tickZeroOpen : MarketTick :=
  { symbol := "S", timestamp := "a", open_ := 0, high := 1, low := 0, close := 1,
    volume := none }

/-- Witness for C10: the zero-open tick displays 0 percent change. -/
theorem percent_change_zero_guard_witness : percentChange (some tickZeroOpen) = 0 :=
  percent_change_zero_guard.2 tickZeroOpen rfl

/-- Claim C8: `addLog` prepends a wall-clock-stamped entry (most recent
first, stamped with the formatting-time reading `now`, the previous list
cut to its first 99 elements), and over any sequence of calls the log never
exceeds 100 entries. -/
theorem log_capped_newest_first :
    (∀ now msg logs, addLog now msg logs = ("[" ++ now ++ "] " ++ msg) :: logs.take 99) ∧
    (∀ now msg logs, (addLog now msg logs).length ≤ 100) ∧
    (∀ calls : List (String × String),
      (calls.foldl (fun logs c => addLog c.1 c.2 logs) []).length ≤ 100) := by
  have hlen : ∀ (now msg : String) (logs : List String),
      (addLog now msg logs).length ≤ 100 := by
    intro now msg logs
    simp only [addLog, List.length_cons, List.length_take]
    omega
  refine ⟨fun _ _ _ => rfl, hlen, ?_⟩
  intro calls
  induction calls using List.reverseRecOn with
  | nil => simp
  | append_singleton cs c _ =>
      rw [List.foldl_append]
      simpa using hlen c.1 c.2 _

/-- Claim C9: the market handler's buffer update preserves timestamp-string
uniqueness: every buffered tick carrying the incoming timestamp is removed
before the incoming tick is appended at the end. -/
theorem market_buffer_unique_timestamps (tick : MarketTick) (prev : List MarketTick)
    (h : (prev.map (fun d => d.timestamp)).Nodup) :
    ((applyMarketTick tick prev).map (fun d => d.timestamp)).Nodup := by
  unfold applyMarketTick
  rw [List.map_append, List.nodup_append]
  refine ⟨?_, by simp, ?_⟩
  · have hs : (prev.filter (fun d => d.timestamp != tick.timestamp)).Sublist prev :=
      List.filter_sublist _
    exact h.sublist (hs.map _)
  · intro x hx hx'
    simp only [List.map_cons, List.map_nil, List.mem_singleton] at hx'
    subst hx'
    rcases List.mem_map.mp hx with ⟨d, hd, hdt⟩
    rcases List.mem_filter.mp hd with ⟨_, hne⟩
    rw [hdt] at hne
    simp at hne

/-- Witness for C9: appending to the empty buffer keeps timestamps unique. -/
theorem market_buffer_unique_timestamps_witness :
    ((applyMarketTick tickW1 []).map (fun d => d.timestamp)).Nodup :=
  market_buffer_unique_timestamps tickW1 [] (by simp)

/-- Claim C7: a failed force update (non-ok response or network error)
leaves the connection flag and the tick state untouched and pushes, besides
the request entry, exactly one new entry whose message is `ERROR:`-prefixed
and carries the error text truncated to 40 characters; no further request
is made. -/
theorem force_update_failure (now1 now2 : String) (r : FetchResult) (s : DashState)
    (e : String) (he : forceUpdateError r = some e) :
    (handleForceUpdate now1 now2 r s).isConnected = s.isConnected ∧
    (handleForceUpdate now1 now2 r s).currentTick = s.currentTick ∧
    (handleForceUpdate now1 now2 r s).chartData = s.chartData ∧
    (handleForceUpdate now1 now2 r s).logs =
      ("[" ++ now2 ++ "] " ++ ("ERROR:" ++ (" Force update failed - " ++ e.take 40))) ::
        ("[" ++ now1 ++ "] " ++ "Requesting force update...") :: s.logs.take 98 ∧
    ("Requesting force update...").take 6 ≠ "ERROR:" := by
  unfold handleForceUpdate
  rw [he]
  refine ⟨rfl, rfl, rfl, ?_, by decide⟩
  show ("[" ++ now2 ++ "] " ++ ("ERROR: Force update failed - " ++ e.take 40)) ::
      (("[" ++ now1 ++ "] " ++ "Requesting force update...") :: s.logs.take 99).take 99 = _
  rw [show ("ERROR: Force update failed - " : String) = "ERROR:" ++ " Force update failed - "
        from rfl,
      String.append_assoc]
  show _ :: ("[" ++ now1 ++ "] " ++ "Requesting force update...") :: (s.logs.take 99).take 98 = _
  rw [List.take_take, min_eq_left (by norm_num)]
  simp only [String.append_assoc]

/-- Witness for C7: an HTTP failure on a connected dashboard with empty
state. -/
theorem force_update_failure_witness :
    (handleForceUpdate "10:00:00" "10:00:01" (FetchResult.response false)
        { isConnected := true, logs := [], currentTick := none, chartData := [] }).isConnected =
      ({ isConnected := true, logs := [], currentTick := none,
         chartData := [] } : DashState).isConnected :=
  (force_update_failure "10:00:00" "10:00:01" (FetchResult.response false)
      { isConnected := true, logs := [], currentTick := none, chartData := [] }
      "Error: Force update failed" rfl).1

/-- The first tick of the same-second scenario. -/
def tickSameSecA : MarketTick :=
  { symbol := "BTCUSDT", timestamp := "2024-01-01T00:00:00Z", open_ := 100, high := 101,
    low := 99, close := 100, volume := some 5 }

/-- The second tick of the same-second scenario, half a second later. -/
def tickSameSecB : MarketTick :=
  { symbol := "BTCUSDT", timestamp := "2024-01-01T00:00:00.500Z", open_ := 102, high := 103,
    low := 101, close := 102, volume := some 6 }

/-- The JS date parser restricted to the two timestamps of the scenario
(their `Date.parse` values in milliseconds). -/
def parseMsSameSec (s : String) : Option Int :=
  if s = "2024-01-01T00:00:00Z" then some 1704067200000
  else if s = "2024-01-01T00:00:00.500Z" then some 1704067200500
  else none

/-- Claim C6: the two ticks fall in the same second bucket, so the canonical
series has exactly one point, carrying the OHLC values of the second tick
(and, being one point, auto-fit is issued). -/
theorem same_second_buffer_one_point :
    syncSeries parseMsSameSec [tickSameSecA, tickSameSecB] =
      some { series := [{ time := 1704067200, open_ := 102, high := 103, low := 101,
                          close := 102 }],
             fit := true } := rfl

/-- Replacing the value at an existing key, or appending a fresh key, acts
on the key list as expected. -/
theorem times_insertLastWins (m : List ChartPoint) (d : ChartPoint) :
    (insertLastWins m d).map ChartPoint.time =
      if m.any (fun e => e.time == d.time) then m.map ChartPoint.time
      else m.map ChartPoint.time ++ [d.time] := by
  unfold insertLastWins
  split
  case isTrue h =>
    rw [List.map_map]
    apply List.map_congr_left
    intro e _
    by_cases he : e.time == d.time
    · simp only [Function.comp_apply, if_pos he]
      exact (eq_of_beq he).symm
    · simp only [Function.comp_apply, if_neg he]
  case isFalse h => simp

/-- A `Map` build step keeps the key list duplicate-free. -/
theorem nodup_times_insertLastWins {m : List ChartPoint} (d : ChartPoint)
    (h : (m.map ChartPoint.time).Nodup) :
    ((insertLastWins m d).map ChartPoint.time).Nodup := by
  rw [times_insertLastWins]
  split
  case isTrue _ => exact h
  case isFalse hany =>
    rw [List.nodup_append]
    refine ⟨h, by simp, ?_⟩
    intro x hx hx'
    simp only [List.mem_singleton] at hx'
    subst hx'
    rcases List.mem_map.mp hx with ⟨e, he, het⟩
    exact hany (List.any_eq_true.mpr ⟨e, he, by simp [het]⟩)

/-- The deduplicated list has pairwise-distinct time buckets. -/
theorem nodup_times_dedupByTime (l : List ChartPoint) :
    ((dedupByTime l).map ChartPoint.time).Nodup := by
  induction l using List.reverseRecOn with
  | nil => simp [dedupByTime]
  | append_singleton l d ih =>
      unfold dedupByTime at ih ⊢
      rw [List.foldl_append, List.foldl_cons, List.foldl_nil]
      exact nodup_times_insertLastWins d ih

/-- Every survivor of the deduplication is an element of the input after
which no entry with the same time bucket occurs: last write wins. -/
theorem mem_dedupByTime_lastOccurrence :
    ∀ (l : List ChartPoint) (d : ChartPoint), d ∈ dedupByTime l →
      ∃ l1 l2, l = l1 ++ d :: l2 ∧ ∀ e ∈ l2, e.time ≠ d.time := by
  intro l
  induction l using List.reverseRecOn with
  | nil => intro d hd; simp [dedupByTime] at hd
  | append_singleton l x ih =>
    intro d hd
    rw [dedupByTime, List.foldl_append, List.foldl_cons, List.foldl_nil] at hd
    unfold insertLastWins at hd
    split at hd
    case isTrue hany =>
      rcases List.mem_map.mp hd with ⟨e, he, hfe⟩
      by_cases ht : e.time == x.time
      · rw [if_pos ht] at hfe
        subst hfe
        exact ⟨l, [], by simp, by simp⟩
      · rw [if_neg ht] at hfe
        subst hfe
        rcases ih e he with ⟨l1, l2, hsplit, hl2⟩
        refine ⟨l1, l2 ++ [x], by rw [hsplit]; simp, ?_⟩
        intro g hg
        rcases List.mem_append.mp hg with hg1 | hg2
        · exact hl2 g hg1
        · rw [List.mem_singleton] at hg2
          subst hg2
          intro hEq
          exact ht (by simp [hEq])
    case isFalse hany =>
      rcases List.mem_append.mp hd with hdm | hdx
      · rcases ih d hdm with ⟨l1, l2, hsplit, hl2⟩
        refine ⟨l1, l2 ++ [x], by rw [hsplit]; simp, ?_⟩
        intro g hg
        rcases List.mem_append.mp hg with hg1 | hg2
        · exact hl2 g hg1
        · rw [List.mem_singleton] at hg2
          subst hg2
          intro hEq
          exact hany (List.any_eq_true.mpr ⟨d, hdm, by simp [hEq]⟩)
      · rw [List.mem_singleton] at hdx
        subst hdx
        exact ⟨l, [], by simp, by simp⟩

/-- Splitting a `filterMap` image around a chosen element gives a matching
split of the source list. -/
theorem filterMap_split {α β : Type} (f : α → Option β) :
    ∀ (data : List α) (c1 c2 : List β) (p : β),
      data.filterMap f = c1 ++ p :: c2 →
      ∃ d1 t d2, data = d1 ++ t :: d2 ∧ f t = some p ∧ d2.filterMap f = c2 := by
  intro data
  induction data with
  | nil =>
      intro c1 c2 p h
      simp at h
  | cons a data ih =>
      intro c1 c2 p h
      cases hfa : f a with
      | none =>
          rw [List.filterMap_cons_none hfa] at h
          rcases ih c1 c2 p h with ⟨d1, t, d2, rfl, hft, hfm⟩
          exact ⟨a :: d1, t, d2, rfl, hft, hfm⟩
      | some b =>
          rw [List.filterMap_cons_some hfa] at h
          cases c1 with
          | nil =>
              rw [List.nil_append] at h
              obtain ⟨rfl, hfm⟩ := List.cons.inj h
              exact ⟨[], a, data, rfl, hfa, hfm⟩
          | cons c c1 =>
              rw [List.cons_append] at h
              obtain ⟨rfl, h2⟩ := List.cons.inj h
              rcases ih c1 c2 p h2 with ⟨d1, t, d2, rfl, hft, hfm⟩
              exact ⟨a :: d1, t, d2, rfl, hft, hfm⟩

/-- Claim C1: every update the synchronizer pushes is strictly ascending by
time bucket — in particular no two points share a bucket. -/
theorem canonical_series_strictly_ascending (parseMs : String → Option Int)
    (data : List MarketTick) (act : RenderAction)
    (h : syncSeries parseMs data = some act) :
    act.series.Pairwise (fun a b => a.time < b.time) := by
  rw [(syncSeries_some h).1]
  unfold uniqueDataOf sortByTime
  have hsorted : List.Sorted timeLE
      (List.insertionSort timeLE (dedupByTime (chartDataOf parseMs data))) :=
    List.sorted_insertionSort timeLE _
  have hperm : List.Perm (List.insertionSort timeLE (dedupByTime (chartDataOf parseMs data)))
      (dedupByTime (chartDataOf parseMs data)) :=
    List.perm_insertionSort timeLE _
  have hnodup : ((List.insertionSort timeLE
      (dedupByTime (chartDataOf parseMs data))).map ChartPoint.time).Nodup :=
    ((hperm.map ChartPoint.time).nodup_iff).mpr (nodup_times_dedupByTime _)
  have hne : (List.insertionSort timeLE
      (dedupByTime (chartDataOf parseMs data))).Pairwise
        (fun a b => ChartPoint.time a ≠ ChartPoint.time b) :=
    List.pairwise_map.mp hnodup
  exact (hsorted.and hne).imp (fun hab => lt_of_le_of_ne hab.1 hab.2)

/-- Witness for C1 at a concrete two-tick buffer. -/
theorem canonical_series_strictly_ascending_witness :
    (RenderAction.mk [ptW1, ptW2] true).series.Pairwise (fun a b => a.time < b.time) :=
  canonical_series_strictly_ascending parseMsW [tickW1, tickW2]
    (RenderAction.mk [ptW1, ptW2] true) rfl

/-- Claim C2: every point of a pushed canonical series is the image of a
tick of the buffer after which no later tick maps to the same bucket — the
point for a duplicated bucket carries the OHLC values of the last such tick
in buffer order. -/
theorem last_tick_wins (parseMs : String → Option Int) (data : List MarketTick)
    (act : RenderAction) (h : syncSeries parseMs data = some act)
    (p : ChartPoint) (hp : p ∈ act.series) :
    ∃ d1 t d2, data = d1 ++ t :: d2 ∧ toChartPoint parseMs t = some p ∧
      ∀ u ∈ d2, ∀ q, toChartPoint parseMs u = some q → q.time ≠ p.time := by
  rw [(syncSeries_some h).1] at hp
  unfold uniqueDataOf sortByTime at hp
  have hp' : p ∈ dedupByTime (chartDataOf parseMs data) :=
    (List.perm_insertionSort timeLE _).mem_iff.mp hp
  rcases mem_dedupByTime_lastOccurrence _ p hp' with ⟨c1, c2, hc, hc2⟩
  rcases filterMap_split (toChartPoint parseMs) data c1 c2 p hc with ⟨d1, t, d2, rfl, hft, hfm⟩
  refine ⟨d1, t, d2, rfl, hft, ?_⟩
  intro u hu q hq
  have hqmem : q ∈ d2.filterMap (toChartPoint parseMs) := List.mem_filterMap.mpr ⟨u, hu, hq⟩
  rw [hfm] at hqmem
  exact hc2 q hqmem

/-- Witness for C2: the second scenario tick is the surviving point. -/
theorem last_tick_wins_witness :
    ∃ d1 t d2, ([tickSameSecA, tickSameSecB] : List MarketTick) = d1 ++ t :: d2 ∧
      toChartPoint parseMsSameSec t =
        some { time := 1704067200, open_ := 102, high := 103, low := 101, close := 102 } ∧
      ∀ u ∈ d2, ∀ q, toChartPoint parseMsSameSec u = some q →
        q.time ≠ ({ time := 1704067200, open_ := 102, high := 103, low := 101,
                    close := 102 } : ChartPoint).time :=
  last_tick_wins parseMsSameSec [tickSameSecA, tickSameSecB]
    (RenderAction.mk
      [{ time := 1704067200, open_ := 102, high := 103, low := 101, close := 102 }] true)
    rfl
    { time := 1704067200, open_ := 102, high := 103, low := 101, close := 102 }
    (List.mem_singleton.mpr rfl)

end FrontEnd
